import Mathlib

/-!
# sing-tun: network-update monitor, default-interface monitor, Wintun endpoint

A shallow embedding of `monitor_darwin.go` and `tun_windows_gvisor.go`.

* Go `error` values are `Option Err` (`none` is `nil`).
* Bytes are natural numbers; where the width matters they are reduced `% 256`.
* Calls into the operating system and into the network stack are recorded in
  event lists, so that "how often" and "in which order" can be stated.
* Library code the two files call (`list.List`, `common.Any`,
  `common.FilterIsInstance`, `header.IPVersion`, `os` raw connections,
  `E.IsClosed`) is modelled next to its caller and marked as such.
-/

namespace SingTun

/-! ## Errors -/

/-- Go `error` values that the monitor code distinguishes. -/
inductive Err where
  /-- The package value `ErrNoRoute`. -/
  | errNoRoute
  /-- The errno `unix.EWOULDBLOCK`. -/
  | ewouldblock
  /-- Any error that the library test `E.IsClosed` accepts, such as
  `os.ErrClosed`, `net.ErrClosed` or `io.EOF`. -/
  | closed
  /-- The value `poll.ErrFileClosing` ("use of closed file"), which a raw
  connection returns, unwrapped, once its file has been closed. -/
  | errFileClosing
  /-- Any other error, told apart by a code. -/
  | other (code : Nat)
  deriving DecidableEq, Repr

/-- Library `E.IsClosed`: is the error one of the closed-connection values the
library lists? `poll.ErrFileClosing` and `EWOULDBLOCK` are not among them. -/
def IsClosed : Err → Bool
  | .closed => true
  | .errFileClosing => false
  | .errNoRoute => false
  | .ewouldblock => false
  | .other _ => false

/-! ## Route messages (`golang.org/x/net/route`) -/

/-- The `route.Addr` interface with its four implementations; `absent` is the
nil interface that fills unused slots of `RouteMessage.Addrs`. -/
inductive Addr where
  | absent
  | link (index : Int) (name : String) (addr : List Nat)
  | inet4 (a b c d : Nat)
  | inet6 (ip : List Nat) (zone : Int)
  | default (af : Int) (raw : List Nat)
  deriving DecidableEq, Repr

/-- The two fields of `route.RouteMessage` that `checkUpdate` reads. -/
structure RouteMessage where
  Index : Int
  Addrs : List Addr
  deriving DecidableEq, Repr

/-- Library `common.FilterIsInstance`: keep the elements the block accepts. -/
def FilterIsInstance {α β : Type} (arr : List α) (block : α → Option β) : List β :=
  arr.filterMap block

/-- Library `common.Any`: does the block hold for some element? -/
def Any {α : Type} (array : List α) (block : α → Bool) : Bool :=
  array.any block

/-- The type assertion `it.(*route.Inet4Addr)` of `checkUpdate`. -/
def asInet4 : Addr → Option (Nat × Nat × Nat × Nat)
  | .inet4 a b c d => some (a, b, c, d)
  | _ => none

/-- The test `addr.IP == netip.IPv4Unspecified().As4()`. -/
def isIPv4Unspecified (ip : Nat × Nat × Nat × Nat) : Bool :=
  decide (ip = (0, 0, 0, 0))

/-- The condition of the `if` in the scan of `checkUpdate` (lines 148-153). -/
def isDefaultRoute (routeMessage : RouteMessage) : Bool :=
  Any (FilterIsInstance routeMessage.Addrs asInet4) isIPv4Unspecified

/-! ## The callback registry of `networkUpdateMonitor` -/

/-- A callback is named by a number; what it does is given separately. -/
abbrev Callback := Nat

/-- A `*list.Element`: the list it belongs to, the identity of the
registration within that list, and its value. -/
structure Element where
  list : Nat
  id : Nat
  Value : Callback
  deriving DecidableEq, Repr

/-- The state of `networkUpdateMonitor` that the registry operations touch:
the identity of its `list.List`, the callbacks of that list in insertion
order, and the number of elements allocated so far (it makes every new
element distinct from the old ones). -/
structure networkUpdateMonitor where
  list : Nat
  callbacks : List Element
  allocated : Nat
  deriving DecidableEq, Repr

/-- Library `list.List.Array`: the values in list order. -/
def ListArray (l : List Element) : List Callback :=
  l.map Element.Value

/-- `RegisterCallback`: `PushBack` the callback and return the new element. -/
def RegisterCallback (m : networkUpdateMonitor) (callback : Callback) :
    Element × networkUpdateMonitor :=
  let element : Element := { list := m.list, id := m.allocated, Value := callback }
  (element, { m with callbacks := m.callbacks ++ [element], allocated := m.allocated + 1 })

/-- `UnregisterCallback`: `Remove` the element from the list; library
`list.List.Remove` does nothing for an element of another list. -/
def UnregisterCallback (m : networkUpdateMonitor) (element : Element) :
    networkUpdateMonitor :=
  if element.list = m.list then
    { m with callbacks := m.callbacks.filter (fun e => decide (e.id ≠ element.id)) }
  else
    m

/-- What `emit` does, in order. -/
inductive EmitEvent where
  /-- The call `callback()` and the error it returned. -/
  | called (callback : Callback) (result : Option Err)
  /-- The call `m.errorHandler.NewError(ctx, err)`. -/
  | reported (err : Err)
  deriving DecidableEq, Repr

/-- The `for` loop of `emit` over the snapshot. A running callback may change
the monitor (register, unregister) and the rest of the world `σ`. -/
def emitLoop {σ : Type}
    (run : Callback → networkUpdateMonitor × σ → (networkUpdateMonitor × σ) × Option Err) :
    List Callback → networkUpdateMonitor × σ → (networkUpdateMonitor × σ) × List EmitEvent
  | [], w => (w, [])
  | callback :: rest, w =>
    let (w1, err) := run callback w
    let (w2, events) := emitLoop run rest w1
    match err with
    | some e => (w2, EmitEvent.called callback err :: EmitEvent.reported e :: events)
    | none => (w2, EmitEvent.called callback err :: events)

/-- `emit`: snapshot the callbacks under the lock, then run the loop. -/
def emit {σ : Type}
    (run : Callback → networkUpdateMonitor × σ → (networkUpdateMonitor × σ) × Option Err)
    (w : networkUpdateMonitor × σ) : (networkUpdateMonitor × σ) × List EmitEvent :=
  let callbacks := ListArray w.1.callbacks
  emitLoop run callbacks w

/-- The callbacks that a trace of `emit` called, in order. -/
def calledCallbacks (events : List EmitEvent) : List Callback :=
  events.filterMap (fun ev => match ev with
    | .called callback _ => some callback
    | .reported _ => none)

/-- The errors that the called callbacks returned, in order. -/
def returnedErrors (events : List EmitEvent) : List Err :=
  events.filterMap (fun ev => match ev with
    | .called _ result => result
    | .reported _ => none)

/-- The errors handed to the error handler, in order. -/
def reportedErrors (events : List EmitEvent) : List Err :=
  events.filterMap (fun ev => match ev with
    | .called _ _ => none
    | .reported e => some e)

/-- The calls of a trace of `emit`, each with the error it returned, in order. -/
def callResults (events : List EmitEvent) : List (Callback × Option Err) :=
  events.filterMap (fun ev => match ev with
    | .called callback result => some (callback, result)
    | .reported _ => none)

/-- The events that one call with the given result contributes: the call,
and the report to the error handler when the result is an error. -/
def callEvents (call : Callback × Option Err) : List EmitEvent :=
  match call.2 with
  | some e => [.called call.1 (some e), .reported e]
  | none => [.called call.1 none]

/-- The world after the given callbacks have run one after the other. -/
def worldAfter {σ : Type}
    (run : Callback → networkUpdateMonitor × σ → (networkUpdateMonitor × σ) × Option Err)
    (w : networkUpdateMonitor × σ) (callbacks : List Callback) : networkUpdateMonitor × σ :=
  callbacks.foldl (fun w callback => (run callback w).1) w

/-! ## `defaultInterfaceMonitor` -/

/-- The fields of `defaultInterfaceMonitor` that change. -/
structure defaultInterfaceMonitor where
  defaultInterfaceName : String
  defaultInterfaceIndex : Int
  element : Option Element
  deriving DecidableEq, Repr

/-- The monitor built by `NewDefaultInterfaceMonitor`: all fields zero. -/
def NewDefaultInterfaceMonitor : defaultInterfaceMonitor :=
  { defaultInterfaceName := "", defaultInterfaceIndex := 0, element := none }

/-- The accessor `DefaultInterfaceName`. -/
def DefaultInterfaceName (m : defaultInterfaceMonitor) : String :=
  m.defaultInterfaceName

/-- The accessor `DefaultInterfaceIndex`. -/
def DefaultInterfaceIndex (m : defaultInterfaceMonitor) : Int :=
  m.defaultInterfaceIndex

/-- The operating system as `checkUpdate` sees it during one call. -/
structure Host where
  /-- The call `route.FetchRIB(unix.AF_UNSPEC, route.RIBTypeRoute, 0)`. -/
  FetchRIB : Except Err (List Nat)
  /-- The call `route.ParseRIB(route.RIBTypeRoute, ribMessage)`. -/
  ParseRIB : List Nat → Except Err (List RouteMessage)
  /-- The call `net.InterfaceByIndex(index)`, reduced to the name it yields. -/
  InterfaceByIndex : Int → Except Err String

/-- What `checkUpdate` does to the outside, in order. -/
inductive CheckEvent where
  /-- The call `net.InterfaceByIndex(index)`. -/
  | resolve (index : Int)
  /-- The call `m.callback()`, with what the two accessors return then. -/
  | callback (name : String) (index : Int)
  deriving DecidableEq, Repr

/-- The result of `checkUpdate`: the returned error, the monitor afterwards,
and the events of the call. -/
structure CheckResult where
  err : Option Err
  monitor : defaultInterfaceMonitor
  events : List CheckEvent
  deriving DecidableEq, Repr

/-- The body of the `if` of `checkUpdate` (lines 154-167) for one matching
route message. -/
def updateFrom (host : Host) (m : defaultInterfaceMonitor) (routeMessage : RouteMessage) :
    CheckResult :=
  let oldInterface := m.defaultInterfaceName
  let oldIndex := m.defaultInterfaceIndex
  let m1 := { m with defaultInterfaceIndex := routeMessage.Index }
  match host.InterfaceByIndex routeMessage.Index with
  | .error err => { err := some err, monitor := m1, events := [.resolve routeMessage.Index] }
  | .ok name =>
    let m2 := { m1 with defaultInterfaceName := name }
    if oldInterface = m2.defaultInterfaceName ∧ oldIndex = m2.defaultInterfaceIndex then
      { err := none, monitor := m2, events := [.resolve routeMessage.Index] }
    else
      { err := none, monitor := m2,
        events := [.resolve routeMessage.Index,
                   .callback (DefaultInterfaceName m2) (DefaultInterfaceIndex m2)] }

/-- The `for` loop of `checkUpdate` (lines 146-170). -/
def scanRoutes (host : Host) (m : defaultInterfaceMonitor) : List RouteMessage → CheckResult
  | [] => { err := some .errNoRoute, monitor := m, events := [] }
  | routeMessage :: rest =>
    if isDefaultRoute routeMessage then updateFrom host m routeMessage
    else scanRoutes host m rest

/-- The method `checkUpdate`. -/
def checkUpdate (host : Host) (m : defaultInterfaceMonitor) : CheckResult :=
  match host.FetchRIB with
  | .error err => { err := some err, monitor := m, events := [] }
  | .ok ribMessage =>
    match host.ParseRIB ribMessage with
    | .error err => { err := some err, monitor := m, events := [] }
    | .ok routeMessages => scanRoutes host m routeMessages

/-- The result of `Start`: the returned error, both monitors afterwards, and
the events of the check that `Start` ran. -/
structure StartResult where
  err : Option Err
  monitor : defaultInterfaceMonitor
  networkMonitor : networkUpdateMonitor
  events : List CheckEvent
  deriving DecidableEq, Repr

/-- The method `Start`; `self` names the method value `m.checkUpdate`. -/
def Start (host : Host) (self : Callback) (m : defaultInterfaceMonitor)
    (networkMonitor : networkUpdateMonitor) : StartResult :=
  let r := checkUpdate host m
  match r.err with
  | some err =>
    { err := some err, monitor := r.monitor, networkMonitor := networkMonitor,
      events := r.events }
  | none =>
    let (element, networkMonitor1) := RegisterCallback networkMonitor self
    { err := none, monitor := { r.monitor with element := some element },
      networkMonitor := networkMonitor1, events := r.events }

/-! ## The read loop of `networkUpdateMonitor` -/

/-- One thing the routing socket does for the raw connection of `loopUpdate`. -/
inductive SockStep where
  /-- The function handed to `rawConn.Read` runs and `unix.Read` returns this:
  a byte count or an errno. -/
  | sysRead (r : Except Err Nat)
  /-- The raw connection gives up with this error without running the
  function: the file is closed (`poll.ErrFileClosing`), or waiting for
  readiness failed. -/
  | pollErr (e : Err)
  deriving Repr

/-- The anonymous function of `loopUpdate` (lines 78-82): the new `innerErr`
and the returned `done`. -/
def readOnce (r : Except Err Nat) : Option Err × Bool :=
  let innerErr : Option Err := match r with
    | .ok _ => none
    | .error e => some e
  (innerErr, decide (innerErr ≠ some Err.ewouldblock))

/-- Library `rawConn.Read` applied to `readOnce`: run the function; when it
says "not done", wait until the socket is readable and run it again. Returns
the error of `rawConn.Read`, the final `innerErr` and the unused steps, or
`none` when the steps end while the call is still waiting. -/
def rawConnRead : Option Err → List SockStep → Option (Option Err × Option Err × List SockStep)
  | _, [] => none
  | innerErr, .pollErr e :: rest => some (some e, innerErr, rest)
  | _, .sysRead r :: rest =>
    let (innerErr, done) := readOnce r
    if done then some (none, innerErr, rest) else rawConnRead innerErr rest

/-- What `loopUpdate` does to the outside, in order. -/
inductive UpdateEvent where
  /-- The call `m.emit()`. -/
  | emitted
  /-- The call `m.errorHandler.NewError(ctx, err)`. -/
  | handled (err : Err)
  deriving DecidableEq, Repr

/-- How a run of `loopUpdate` over a list of steps ends. -/
inductive UpdateEnd where
  /-- The method returned. -/
  | returned
  /-- The steps ended while the loop was waiting inside `rawConn.Read`. -/
  | waiting
  /-- The iteration bound of the model was used up. -/
  | outOfFuel
  deriving DecidableEq, Repr

/-- One pass of the loop of `loopUpdate` after its `rawConn.Read` has come
back (lines 83-89), and on `break` the end of the method (lines 91-93);
`next` runs the passes that follow. -/
def afterRead (next : List SockStep → List UpdateEvent × UpdateEnd) :
    Option (Option Err × Option Err × List SockStep) → List UpdateEvent × UpdateEnd
  | none => ([], .waiting)
  | some (err, innerErr, rest) =>
    let err := if innerErr ≠ none then innerErr else err
    match err with
    | some e =>
      if !IsClosed e then ([.handled e], .returned) else ([], .returned)
    | none =>
      let (events, ending) := next rest
      (.emitted :: events, ending)

/-- The `for` loop of `loopUpdate` (lines 76-93), at most `fuel` passes; every
pass starts with `var innerErr error`. -/
def updateLoop : Nat → List SockStep → List UpdateEvent × UpdateEnd
  | 0, _ => ([], .outOfFuel)
  | fuel + 1, steps => afterRead (updateLoop fuel) (rawConnRead none steps)

/-- The method `loopUpdate`; `syscallConn` is the error of
`m.routeSocket.SyscallConn()`. Every iteration uses up a step, so one more
iteration than there are steps is enough. -/
def loopUpdate (syscallConn : Option Err) (steps : List SockStep) :
    List UpdateEvent × UpdateEnd :=
  match syscallConn with
  | some err => ([.handled err], .returned)
  | none => updateLoop (steps.length + 1) steps

/-- The number of successful reads among the steps. -/
def successCount : List SockStep → Nat
  | [] => 0
  | .sysRead (.ok _) :: rest => successCount rest + 1
  | _ :: rest => successCount rest

/-- The number of `m.emit()` calls in a trace of `loopUpdate`. -/
def emitCount (events : List UpdateEvent) : Nat :=
  events.count .emitted

/-- The errors handed to the error handler in a trace of `loopUpdate`. -/
def handledErrors (events : List UpdateEvent) : List Err :=
  events.filterMap (fun ev => match ev with
    | .emitted => none
    | .handled e => some e)

/-! ## `WintunEndpoint` -/

/-- A `stack.NetworkDispatcher` is named by a number; nil is `none`. -/
abbrev Dispatcher := Nat

/-- The field of `WintunEndpoint` that changes. -/
structure WintunEndpoint where
  dispatcher : Option Dispatcher
  deriving DecidableEq, Repr

/-- The method `Attach`: the endpoint afterwards and the number of
`go e.dispatchLoop()` statements executed. -/
def Attach (e : WintunEndpoint) (dispatcher : Option Dispatcher) : WintunEndpoint × Nat :=
  if dispatcher = none ∧ e.dispatcher ≠ none then
    ({ e with dispatcher := none }, 0)
  else if dispatcher ≠ none ∧ e.dispatcher = none then
    ({ e with dispatcher := dispatcher }, 1)
  else
    (e, 0)

/-- The method `IsAttached`. -/
def IsAttached (e : WintunEndpoint) : Bool :=
  decide (e.dispatcher ≠ none)

/-- A sequence of `Attach` calls: the endpoint after the last one and the
number of ingress loops started in total. -/
def attachAll : WintunEndpoint → List (Option Dispatcher) → WintunEndpoint × Nat
  | e, [] => (e, 0)
  | e, dispatcher :: rest =>
    let (e1, started) := Attach e dispatcher
    let (e2, later) := attachAll e1 rest
    (e2, started + later)

/-- The endpoint after each call of a sequence of `Attach` calls. -/
def attachStates : WintunEndpoint → List (Option Dispatcher) → List WintunEndpoint
  | _, [] => []
  | e, dispatcher :: rest => (Attach e dispatcher).1 :: attachStates (Attach e dispatcher).1 rest

/-- The number of steps from detached to attached in a sequence of states that
follows the state `before`. -/
def attachTransitions : WintunEndpoint → List WintunEndpoint → Nat
  | _, [] => 0
  | before, e :: rest =>
    (if IsAttached before = false ∧ IsAttached e = true then 1 else 0)
      + attachTransitions e rest

/-- Library `header.IPVersion`: the high four bits of the first byte, or `-1`
for an empty buffer. -/
def IPVersion (b : List Nat) : Int :=
  match b with
  | [] => -1
  | b0 :: _ => ((b0 % 256 / 16 : Nat) : Int)

/-- Library constant `header.IPv4Version`. -/
def IPv4Version : Int := 4

/-- Library constant `header.IPv6Version`. -/
def IPv6Version : Int := 6

/-- Library constant `header.IPv4ProtocolNumber`. -/
def IPv4ProtocolNumber : Nat := 0x0800

/-- Library constant `header.IPv6ProtocolNumber`. -/
def IPv6ProtocolNumber : Nat := 0x86dd

/-- What one pass through the body of the ingress loop meets. -/
structure Iteration where
  /-- The call `e.tun.Read(data)`: the bytes `data[:n]`, or an error. -/
  read : Except Err (List Nat)
  /-- The value of `e.dispatcher` when line 87 reads it in this pass. -/
  dispatcher : Option Dispatcher
  deriving Repr

/-- What `dispatchLoop` does to the outside, in order. -/
inductive LoopEvent where
  /-- The call `e.tun.Write(buffers)`. -/
  | deviceWrite (buffers : List (List Nat))
  /-- The call `dispatcher.DeliverNetworkPacket(protocol, pkt)`. -/
  | deliver (dispatcher : Dispatcher) (protocol : Nat) (payload : List Nat)
  deriving DecidableEq, Repr

/-- How a run of `dispatchLoop` over a list of passes ends. -/
inductive LoopEnd where
  /-- All passes are done and the loop is inside the next `e.tun.Read`. -/
  | reading
  /-- The loop left through `break` after a failed read. -/
  | readFailed
  /-- The loop left through `return` after it saw no dispatcher. -/
  | detached
  deriving DecidableEq, Repr

/-- The `for` loop of `dispatchLoop` (lines 67-94). -/
def dispatchLoop : List Iteration → List LoopEvent × LoopEnd
  | [] => ([], .reading)
  | it :: rest =>
    match it.read with
    | .error _ => ([], .readFailed)
    | .ok packet =>
      if IPVersion packet = IPv4Version then
        match it.dispatcher with
        | none => ([], .detached)
        | some dispatcher =>
          let (events, ending) := dispatchLoop rest
          (.deliver dispatcher IPv4ProtocolNumber packet :: events, ending)
      else if IPVersion packet = IPv6Version then
        match it.dispatcher with
        | none => ([], .detached)
        | some dispatcher =>
          let (events, ending) := dispatchLoop rest
          (.deliver dispatcher IPv6ProtocolNumber packet :: events, ending)
      else
        let (events, ending) := dispatchLoop rest
        (.deviceWrite [packet] :: events, ending)

/-- What the specification of the ingress loop expects for one packet that is
read while the dispatcher `dispatcher` is recorded, stated on the high nibble
of the first byte. -/
def expectedEvent (dispatcher : Dispatcher) (packet : List Nat) : LoopEvent :=
  match packet with
  | [] => .deviceWrite [packet]
  | b0 :: _ =>
    if b0 % 256 / 16 = 4 then .deliver dispatcher IPv4ProtocolNumber packet
    else if b0 % 256 / 16 = 6 then .deliver dispatcher IPv6ProtocolNumber packet
    else .deviceWrite [packet]

/-- A `tcpip.Error` value. -/
inductive TcpipError where
  | ErrAborted
  deriving DecidableEq, Repr

/-- The device behind `e.tun`, with a state of type `σ`. -/
structure Device (σ : Type) where
  /-- The call `e.tun.Write(buffers)`: the device afterwards and the error. -/
  Write : σ → List (List Nat) → σ × Option Err

/-- The result of `WritePackets`: the returned count and error, the device
afterwards, and every write that was attempted with its error, in order. -/
structure WriteResult (σ : Type) where
  n : Nat
  err : Option TcpipError
  device : σ
  attempts : List (List (List Nat) × Option Err)

/-- The `for` loop of `WritePackets`; a packet is given by `AsSlices()`. -/
def writeLoop {σ : Type} (tun : Device σ) : σ → Nat → List (List (List Nat)) → WriteResult σ
  | s, n, [] => { n := n, err := none, device := s, attempts := [] }
  | s, n, packet :: rest =>
    let (s1, err) := tun.Write s packet
    match err with
    | some e =>
      { n := n, err := some .ErrAborted, device := s1, attempts := [(packet, some e)] }
    | none =>
      let r := writeLoop tun s1 (n + 1) rest
      { r with attempts := (packet, none) :: r.attempts }

/-- The device after the given packets have been written to it in order. -/
def deviceAfter {σ : Type} (tun : Device σ) (s : σ) (packets : List (List (List Nat))) : σ :=
  packets.foldl (fun s packet => (tun.Write s packet).1) s

/-- The method `WritePackets`. -/
def WritePackets {σ : Type} (tun : Device σ) (s : σ)
    (packetBufferList : List (List (List Nat))) : WriteResult σ :=
  writeLoop tun s 0 packetBufferList

/-! ## Sample inputs -/

/-- A default route through interface 5: destination `0.0.0.0`, a link
address and a netmask. -/
def sampleDefaultRoute : RouteMessage :=
  { Index := 5, Addrs := [.inet4 0 0 0 0, .link 5 "en1" [], .inet4 0 0 0 0] }

/-- A host route through interface 1. -/
def sampleHostRoute : RouteMessage :=
  { Index := 1, Addrs := [.inet4 127 0 0 1, .inet4 127 0 0 1] }

/-- An IPv6 default route through interface 7: destination `::`. -/
def sampleInet6Route : RouteMessage :=
  { Index := 7, Addrs := [.inet6 (List.replicate 16 0) 0, .absent] }

/-- A second IPv4 default route, through interface 9. -/
def sampleLaterRoute : RouteMessage :=
  { Index := 9, Addrs := [.inet4 0 0 0 0] }

/-- A host whose table has a host route, an IPv6 default route, then two
IPv4 default routes, and where interface 5 is called `en1`. -/
def sampleHost : Host :=
  { FetchRIB := .ok [5],
    ParseRIB := fun _ =>
      .ok [sampleHostRoute, sampleInet6Route, sampleDefaultRoute, sampleLaterRoute],
    InterfaceByIndex := fun index => if index = 5 then .ok "en1" else .error (.other 6) }

/-- A host whose table has no IPv4 default route. -/
def sampleHostNoRoute : Host :=
  { FetchRIB := .ok [],
    ParseRIB := fun _ => .ok [sampleHostRoute, sampleInet6Route],
    InterfaceByIndex := fun index => if index = 5 then .ok "en1" else .error (.other 6) }

/-- A host whose only default route goes through interface 5, which the
interface table does not know. -/
def sampleHostUnresolved : Host :=
  { FetchRIB := .ok [5],
    ParseRIB := fun _ => .ok [sampleDefaultRoute],
    InterfaceByIndex := fun _ => .error (.other 6) }

/-- A monitor whose last successful check found `en0` with index 4. -/
def sampleMonitor : defaultInterfaceMonitor :=
  { defaultInterfaceName := "en0", defaultInterfaceIndex := 4, element := none }

/-- A network monitor with one registered callback. -/
def sampleNetworkMonitor : networkUpdateMonitor :=
  { list := 1, callbacks := [{ list := 1, id := 0, Value := 11 }], allocated := 1 }

/-- A device that counts its writes and fails the second one. -/
def sampleDevice : Device Nat :=
  { Write := fun s _ => (s + 1, if s = 1 then some (.other 5) else none) }

/-- Three packets of one slice each. -/
def samplePackets : List (List (List Nat)) :=
  [[[0x45, 0]], [[0x45, 1]], [[0x45, 2]]]

/-- The routing socket would block, and the socket is closed while the loop
waits for it to become readable: the raw connection returns
`poll.ErrFileClosing`. -/
def sampleClosedWhileWaiting : List SockStep :=
  [.sysRead (.error .ewouldblock), .pollErr .errFileClosing]

/-- A callback behaviour for `emit`: callback 11 registers callback 12 and
fails, every other callback succeeds and changes nothing. -/
def sampleRun (callback : Callback) (w : networkUpdateMonitor × Unit) :
    (networkUpdateMonitor × Unit) × Option Err :=
  if callback = 11 then (((RegisterCallback w.1 12).2, ()), some (.other 3)) else (w, none)

/-- The pass of the ingress loop that reads `packet` while `dispatcher` is
recorded. -/
def readWhileAttached (packet : List Nat) (dispatcher : Dispatcher) : Iteration :=
  { read := .ok packet, dispatcher := some dispatcher }

/-! ## Theorems: the default-route scan -/

/-- A route message passes the test of `checkUpdate` exactly when the IPv4
address `0.0.0.0` is among its addresses. -/
theorem isDefaultRoute_iff (routeMessage : RouteMessage) :
    isDefaultRoute routeMessage = true ↔ Addr.inet4 0 0 0 0 ∈ routeMessage.Addrs := by
  unfold isDefaultRoute Any FilterIsInstance
  rw [List.any_eq_true]
  constructor
  · rintro ⟨ip, hip, hzero⟩
    rw [List.mem_filterMap] at hip
    obtain ⟨addr, haddr, hcast⟩ := hip
    have hip0 : ip = (0, 0, 0, 0) := by simpa [isIPv4Unspecified] using hzero
    cases addr <;> simp [asInet4] at hcast
    subst hcast
    simp only [Prod.mk.injEq] at hip0
    obtain ⟨h1, h2, h3, h4⟩ := hip0
    subst h1 h2 h3 h4
    exact haddr
  · intro hmem
    refine ⟨(0, 0, 0, 0), ?_, by simp [isIPv4Unspecified]⟩
    rw [List.mem_filterMap]
    exact ⟨_, hmem, rfl⟩

/-- The scan skips every message that fails the test. -/
theorem scanRoutes_skip (host : Host) (m : defaultInterfaceMonitor)
    (pre rest : List RouteMessage) (hpre : ∀ r ∈ pre, isDefaultRoute r = false) :
    scanRoutes host m (pre ++ rest) = scanRoutes host m rest := by
  induction pre with
  | nil => rfl
  | cons r pre ih =>
    have hr : isDefaultRoute r = false := hpre r (List.mem_cons_self r pre)
    have hrest : ∀ q ∈ pre, isDefaultRoute q = false :=
      fun q hq => hpre q (List.mem_cons_of_mem r hq)
    simp [scanRoutes, hr, ih hrest]

/-- The scan stops at the first message that passes the test. -/
theorem scanRoutes_first (host : Host) (m : defaultInterfaceMonitor)
    (pre : List RouteMessage) (routeMessage : RouteMessage) (post : List RouteMessage)
    (hpre : ∀ r ∈ pre, isDefaultRoute r = false)
    (hmatch : isDefaultRoute routeMessage = true) :
    scanRoutes host m (pre ++ routeMessage :: post) = updateFrom host m routeMessage := by
  rw [scanRoutes_skip host m pre _ hpre]
  simp [scanRoutes, hmatch]

/-- With a fetched and parsed table, `checkUpdate` is the scan of the table. -/
theorem checkUpdate_eq_scan (host : Host) (m : defaultInterfaceMonitor) (rib : List Nat)
    (table : List RouteMessage) (hfetch : host.FetchRIB = .ok rib)
    (hparse : host.ParseRIB rib = .ok table) :
    checkUpdate host m = scanRoutes host m table := by
  simp [checkUpdate, hfetch, hparse]

/-- The update for one message never touches the registration handle. -/
theorem updateFrom_element (host : Host) (m : defaultInterfaceMonitor)
    (routeMessage : RouteMessage) :
    (updateFrom host m routeMessage).monitor.element = m.element := by
  unfold updateFrom
  cases host.InterfaceByIndex routeMessage.Index with
  | error e => rfl
  | ok name =>
    simp only
    split <;> rfl

/-- The scan never touches the registration handle. -/
theorem scanRoutes_element (host : Host) (m : defaultInterfaceMonitor)
    (table : List RouteMessage) :
    (scanRoutes host m table).monitor.element = m.element := by
  induction table with
  | nil => rfl
  | cons r rest ih =>
    unfold scanRoutes
    split
    · exact updateFrom_element host m r
    · exact ih

/-- The check never touches the registration handle. -/
theorem checkUpdate_element (host : Host) (m : defaultInterfaceMonitor) :
    (checkUpdate host m).monitor.element = m.element := by
  unfold checkUpdate
  cases host.FetchRIB with
  | error e => rfl
  | ok rib =>
    simp only
    cases host.ParseRIB rib with
    | error e => rfl
    | ok table => exact scanRoutes_element host m table

/-- C1: when the first default-route entry of the table resolves to `name`,
`checkUpdate` succeeds and leaves the resolved identity in the accessors; if
that identity equals the cached one, the callback is not invoked and the
monitor is unchanged; otherwise the callback is invoked exactly once, after
the accessors already return the new identity. -/
theorem checkUpdate_resolved (host : Host) (m : defaultInterfaceMonitor) (rib : List Nat)
    (pre : List RouteMessage) (routeMessage : RouteMessage) (post : List RouteMessage)
    (name : String)
    (hfetch : host.FetchRIB = .ok rib)
    (hparse : host.ParseRIB rib = .ok (pre ++ routeMessage :: post))
    (hpre : ∀ r ∈ pre, isDefaultRoute r = false)
    (hmatch : isDefaultRoute routeMessage = true)
    (hresolve : host.InterfaceByIndex routeMessage.Index = .ok name) :
    (checkUpdate host m).err = none ∧
    DefaultInterfaceName (checkUpdate host m).monitor = name ∧
    DefaultInterfaceIndex (checkUpdate host m).monitor = routeMessage.Index ∧
    ((name, routeMessage.Index) = (DefaultInterfaceName m, DefaultInterfaceIndex m) →
      (checkUpdate host m).events = [.resolve routeMessage.Index] ∧
      (checkUpdate host m).monitor = m) ∧
    ((name, routeMessage.Index) ≠ (DefaultInterfaceName m, DefaultInterfaceIndex m) →
      (checkUpdate host m).events =
        [.resolve routeMessage.Index, .callback name routeMessage.Index]) := by
  rw [checkUpdate_eq_scan host m rib _ hfetch hparse,
    scanRoutes_first host m pre routeMessage post hpre hmatch]
  unfold updateFrom
  simp only [hresolve, DefaultInterfaceName, DefaultInterfaceIndex, Prod.mk.injEq, ne_eq]
  by_cases hsame : m.defaultInterfaceName = name ∧ m.defaultInterfaceIndex = routeMessage.Index
  · obtain ⟨hn, hi⟩ := hsame
    subst hn
    simp [hi]
    cases m
    simp_all
  · rw [if_neg hsame]
    refine ⟨rfl, rfl, rfl, ?_, ?_⟩
    · rintro ⟨hn, hi⟩
      exact absurd ⟨hn.symm, hi.symm⟩ hsame
    · intro _
      rfl

/-- C1 at a sample: the cached `en0`/4 differs from the resolved `en1`/5. -/
theorem checkUpdate_resolved_witness :
    (checkUpdate sampleHost sampleMonitor).err = none ∧
    DefaultInterfaceName (checkUpdate sampleHost sampleMonitor).monitor = "en1" ∧
    DefaultInterfaceIndex (checkUpdate sampleHost sampleMonitor).monitor
      = sampleDefaultRoute.Index ∧
    (("en1", sampleDefaultRoute.Index)
        = (DefaultInterfaceName sampleMonitor, DefaultInterfaceIndex sampleMonitor) →
      (checkUpdate sampleHost sampleMonitor).events = [.resolve sampleDefaultRoute.Index] ∧
      (checkUpdate sampleHost sampleMonitor).monitor = sampleMonitor) ∧
    (("en1", sampleDefaultRoute.Index)
        ≠ (DefaultInterfaceName sampleMonitor, DefaultInterfaceIndex sampleMonitor) →
      (checkUpdate sampleHost sampleMonitor).events =
        [.resolve sampleDefaultRoute.Index, .callback "en1" sampleDefaultRoute.Index]) :=
  checkUpdate_resolved sampleHost sampleMonitor [5] [sampleHostRoute, sampleInet6Route]
    sampleDefaultRoute [sampleLaterRoute] "en1" rfl rfl (by decide) (by decide) rfl

/-- When the first default-route entry does not resolve, `checkUpdate` returns
the resolution error without invoking the callback; the cached name is kept
and the cached index is the index of that entry. -/
theorem checkUpdate_unresolved (host : Host) (m : defaultInterfaceMonitor) (rib : List Nat)
    (pre : List RouteMessage) (routeMessage : RouteMessage) (post : List RouteMessage)
    (err : Err)
    (hfetch : host.FetchRIB = .ok rib)
    (hparse : host.ParseRIB rib = .ok (pre ++ routeMessage :: post))
    (hpre : ∀ r ∈ pre, isDefaultRoute r = false)
    (hmatch : isDefaultRoute routeMessage = true)
    (hresolve : host.InterfaceByIndex routeMessage.Index = .error err) :
    (checkUpdate host m).err = some err ∧
    (checkUpdate host m).events = [.resolve routeMessage.Index] ∧
    DefaultInterfaceName (checkUpdate host m).monitor = DefaultInterfaceName m ∧
    DefaultInterfaceIndex (checkUpdate host m).monitor = routeMessage.Index := by
  rw [checkUpdate_eq_scan host m rib _ hfetch hparse,
    scanRoutes_first host m pre routeMessage post hpre hmatch]
  unfold updateFrom
  simp [hresolve, DefaultInterfaceName, DefaultInterfaceIndex]

/-- C2: with `en0`/4 cached and a default route through interface 5 that does
not resolve, `checkUpdate` returns the resolution error and invokes no
callback, but afterwards the accessors return `en0` with index 5, which is
neither the cached pair nor a resolved one. -/
theorem checkUpdate_unresolved_half_update :
    (checkUpdate sampleHostUnresolved sampleMonitor).err = some (.other 6) ∧
    (checkUpdate sampleHostUnresolved sampleMonitor).events = [.resolve 5] ∧
    DefaultInterfaceName sampleMonitor = "en0" ∧
    DefaultInterfaceIndex sampleMonitor = 4 ∧
    DefaultInterfaceName (checkUpdate sampleHostUnresolved sampleMonitor).monitor = "en0" ∧
    DefaultInterfaceIndex (checkUpdate sampleHostUnresolved sampleMonitor).monitor = 5 := by
  decide

/-- C3: when no entry of the parsed table has the IPv4 address `0.0.0.0` among
its addresses, `checkUpdate` fails with `ErrNoRoute`, leaves the monitor as
it was and invokes neither the resolver nor the callback; a fresh monitor
still reports the empty name and index 0. -/
theorem checkUpdate_no_default_route (host : Host) (m : defaultInterfaceMonitor)
    (rib : List Nat) (table : List RouteMessage)
    (hfetch : host.FetchRIB = .ok rib)
    (hparse : host.ParseRIB rib = .ok table)
    (hnone : ∀ r ∈ table, Addr.inet4 0 0 0 0 ∉ r.Addrs) :
    (checkUpdate host m).err = some .errNoRoute ∧
    (checkUpdate host m).monitor = m ∧
    (checkUpdate host m).events = [] ∧
    (m = NewDefaultInterfaceMonitor →
      DefaultInterfaceName (checkUpdate host m).monitor = "" ∧
      DefaultInterfaceIndex (checkUpdate host m).monitor = 0) := by
  have hpre : ∀ r ∈ table, isDefaultRoute r = false := by
    intro r hr
    cases hd : isDefaultRoute r with
    | false => rfl
    | true => exact absurd ((isDefaultRoute_iff r).mp hd) (hnone r hr)
  have hscan : scanRoutes host m table = scanRoutes host m [] := by
    have h := scanRoutes_skip host m table [] hpre
    rwa [List.append_nil] at h
  rw [checkUpdate_eq_scan host m rib table hfetch hparse, hscan]
  refine ⟨rfl, rfl, rfl, ?_⟩
  intro hm
  subst hm
  exact ⟨rfl, rfl⟩

/-- C3 at a sample: a host route and an IPv6 default route only. -/
theorem checkUpdate_no_default_route_witness :
    (checkUpdate sampleHostNoRoute NewDefaultInterfaceMonitor).err = some .errNoRoute ∧
    (checkUpdate sampleHostNoRoute NewDefaultInterfaceMonitor).monitor
      = NewDefaultInterfaceMonitor ∧
    (checkUpdate sampleHostNoRoute NewDefaultInterfaceMonitor).events = [] ∧
    (NewDefaultInterfaceMonitor = NewDefaultInterfaceMonitor →
      DefaultInterfaceName (checkUpdate sampleHostNoRoute NewDefaultInterfaceMonitor).monitor
        = "" ∧
      DefaultInterfaceIndex (checkUpdate sampleHostNoRoute NewDefaultInterfaceMonitor).monitor
        = 0) :=
  checkUpdate_no_default_route sampleHostNoRoute NewDefaultInterfaceMonitor []
    [sampleHostRoute, sampleInet6Route] rfl rfl (by decide)

/-- C4: `checkUpdate` decides from the first entry, in table order, that has
the IPv4 address `0.0.0.0` among its addresses: its result is the update for
that entry, whatever follows it, and the only interface it resolves is that
entry's; an entry matches exactly when it has that address, so an entry whose
only unspecified address is the IPv6 `::` does not match. -/
theorem checkUpdate_first_match (host : Host) (m : defaultInterfaceMonitor) (rib : List Nat)
    (pre : List RouteMessage) (routeMessage : RouteMessage) (post : List RouteMessage)
    (hfetch : host.FetchRIB = .ok rib)
    (hparse : host.ParseRIB rib = .ok (pre ++ routeMessage :: post))
    (hpre : ∀ r ∈ pre, Addr.inet4 0 0 0 0 ∉ r.Addrs)
    (hmatch : Addr.inet4 0 0 0 0 ∈ routeMessage.Addrs) :
    checkUpdate host m = updateFrom host m routeMessage ∧
    (∀ post', scanRoutes host m (pre ++ routeMessage :: post')
      = scanRoutes host m (pre ++ routeMessage :: post)) ∧
    (∀ index, CheckEvent.resolve index ∈ (checkUpdate host m).events →
      index = routeMessage.Index) ∧
    (∀ r : RouteMessage, isDefaultRoute r = true ↔ Addr.inet4 0 0 0 0 ∈ r.Addrs) ∧
    (∀ (index : Int) (zone : Int) (ip : List Nat) (others : List Addr),
      Addr.inet4 0 0 0 0 ∉ others →
      isDefaultRoute { Index := index, Addrs := Addr.inet6 ip zone :: others } = false) := by
  have hpre' : ∀ r ∈ pre, isDefaultRoute r = false := by
    intro r hr
    cases hd : isDefaultRoute r with
    | false => rfl
    | true => exact absurd ((isDefaultRoute_iff r).mp hd) (hpre r hr)
  have hmatch' : isDefaultRoute routeMessage = true := (isDefaultRoute_iff routeMessage).mpr hmatch
  have hcheck : checkUpdate host m = updateFrom host m routeMessage := by
    rw [checkUpdate_eq_scan host m rib _ hfetch hparse,
      scanRoutes_first host m pre routeMessage post hpre' hmatch']
  refine ⟨hcheck, ?_, ?_, isDefaultRoute_iff, ?_⟩
  · intro post'
    rw [scanRoutes_first host m pre routeMessage post' hpre' hmatch',
      scanRoutes_first host m pre routeMessage post hpre' hmatch']
  · intro index hmem
    rw [hcheck] at hmem
    unfold updateFrom at hmem
    cases hres : host.InterfaceByIndex routeMessage.Index with
    | error e => simpa [hres] using hmem
    | ok name =>
      simp only [hres] at hmem
      split at hmem <;> simpa using hmem
  · intro index zone ip others hothers
    cases hd : isDefaultRoute { Index := index, Addrs := Addr.inet6 ip zone :: others } with
    | false => rfl
    | true =>
      have hmem := (isDefaultRoute_iff _).mp hd
      simp only [List.mem_cons] at hmem
      rcases hmem with h | h
      · cases h
      · exact absurd h hothers

/-- C4 at a sample: a host route and an IPv6 default route come first, a
second IPv4 default route comes last. -/
theorem checkUpdate_first_match_witness :
    checkUpdate sampleHost sampleMonitor = updateFrom sampleHost sampleMonitor sampleDefaultRoute ∧
    (∀ post', scanRoutes sampleHost sampleMonitor
        ([sampleHostRoute, sampleInet6Route] ++ sampleDefaultRoute :: post')
      = scanRoutes sampleHost sampleMonitor
        ([sampleHostRoute, sampleInet6Route] ++ sampleDefaultRoute :: [sampleLaterRoute])) ∧
    (∀ index, CheckEvent.resolve index ∈ (checkUpdate sampleHost sampleMonitor).events →
      index = sampleDefaultRoute.Index) ∧
    (∀ r : RouteMessage, isDefaultRoute r = true ↔ Addr.inet4 0 0 0 0 ∈ r.Addrs) ∧
    (∀ (index : Int) (zone : Int) (ip : List Nat) (others : List Addr),
      Addr.inet4 0 0 0 0 ∉ others →
      isDefaultRoute { Index := index, Addrs := Addr.inet6 ip zone :: others } = false) :=
  checkUpdate_first_match sampleHost sampleMonitor [5] [sampleHostRoute, sampleInet6Route]
    sampleDefaultRoute [sampleLaterRoute] rfl rfl (by decide) (by decide)

/-! ## Theorems: `Start` -/

/-- C5: `Start` runs `checkUpdate` once, first; if the check fails, `Start`
returns the same error, the registry of the network monitor is unchanged and
the stored handle is what it was (nil on a new monitor); if the check
succeeds, `Start` returns nil, the registry has grown by exactly one element
at its end, that element holds `checkUpdate`, and it is the stored handle. -/
theorem Start_spec (host : Host) (self : Callback) (m : defaultInterfaceMonitor)
    (networkMonitor : networkUpdateMonitor) :
    (Start host self m networkMonitor).events = (checkUpdate host m).events ∧
    DefaultInterfaceName (Start host self m networkMonitor).monitor
      = DefaultInterfaceName (checkUpdate host m).monitor ∧
    DefaultInterfaceIndex (Start host self m networkMonitor).monitor
      = DefaultInterfaceIndex (checkUpdate host m).monitor ∧
    (∀ err, (checkUpdate host m).err = some err →
      (Start host self m networkMonitor).err = some err ∧
      (Start host self m networkMonitor).networkMonitor = networkMonitor ∧
      (Start host self m networkMonitor).monitor.element = m.element ∧
      (m.element = none → (Start host self m networkMonitor).monitor.element = none)) ∧
    ((checkUpdate host m).err = none →
      (Start host self m networkMonitor).err = none ∧
      (∃ element : Element,
        element.Value = self ∧
        (Start host self m networkMonitor).networkMonitor.callbacks
          = networkMonitor.callbacks ++ [element] ∧
        (Start host self m networkMonitor).monitor.element = some element ∧
        (element, (Start host self m networkMonitor).networkMonitor)
          = RegisterCallback networkMonitor self)) := by
  cases herr : (checkUpdate host m).err with
  | some e =>
    have hS : Start host self m networkMonitor =
        { err := some e, monitor := (checkUpdate host m).monitor,
          networkMonitor := networkMonitor, events := (checkUpdate host m).events } := by
      unfold Start
      simp only [herr]
    rw [hS]
    refine ⟨rfl, rfl, rfl, ?_, ?_⟩
    · intro err he
      injection he with he
      subst he
      exact ⟨rfl, rfl, checkUpdate_element host m,
        fun hnone => (checkUpdate_element host m).trans hnone⟩
    · intro h
      cases h
  | none =>
    have hS : Start host self m networkMonitor =
        { err := none,
          monitor := { (checkUpdate host m).monitor with
            element := some (RegisterCallback networkMonitor self).1 },
          networkMonitor := (RegisterCallback networkMonitor self).2,
          events := (checkUpdate host m).events } := by
      unfold Start
      simp only [herr]
    rw [hS]
    refine ⟨rfl, rfl, rfl, ?_, ?_⟩
    · intro err h
      cases h
    · intro _
      exact ⟨rfl, (RegisterCallback networkMonitor self).1, rfl, rfl, rfl, rfl⟩

/-- C5 at samples: a failing start leaves the registry and the nil handle, a
successful start appends `checkUpdate` to the registry and stores the handle. -/
theorem Start_spec_witness :
    ((Start sampleHostNoRoute 3 NewDefaultInterfaceMonitor sampleNetworkMonitor).err
        = some .errNoRoute ∧
      (Start sampleHostNoRoute 3 NewDefaultInterfaceMonitor sampleNetworkMonitor).networkMonitor
        = sampleNetworkMonitor ∧
      (Start sampleHostNoRoute 3 NewDefaultInterfaceMonitor sampleNetworkMonitor).monitor.element
        = none) ∧
    ((Start sampleHost 3 NewDefaultInterfaceMonitor sampleNetworkMonitor).err = none ∧
      ∃ element : Element,
        element.Value = 3 ∧
        (Start sampleHost 3 NewDefaultInterfaceMonitor sampleNetworkMonitor).networkMonitor.callbacks
          = sampleNetworkMonitor.callbacks ++ [element] ∧
        (Start sampleHost 3 NewDefaultInterfaceMonitor sampleNetworkMonitor).monitor.element
          = some element ∧
        (element,
          (Start sampleHost 3 NewDefaultInterfaceMonitor sampleNetworkMonitor).networkMonitor)
          = RegisterCallback sampleNetworkMonitor 3) :=
  by
  have hfail := (Start_spec sampleHostNoRoute 3 NewDefaultInterfaceMonitor
    sampleNetworkMonitor).2.2.2.1 .errNoRoute (by decide)
  have hok := (Start_spec sampleHost 3 NewDefaultInterfaceMonitor
    sampleNetworkMonitor).2.2.2.2 (by decide)
  exact ⟨⟨hfail.1, hfail.2.1, hfail.2.2.2 rfl⟩, hok⟩

/-! ## Theorems: `emit` -/

/-- The loop of `emit` calls the callbacks of its snapshot, in order. -/
theorem emitLoop_called {σ : Type}
    (run : Callback → networkUpdateMonitor × σ → (networkUpdateMonitor × σ) × Option Err)
    (callbacks : List Callback) (w : networkUpdateMonitor × σ) :
    calledCallbacks (emitLoop run callbacks w).2 = callbacks := by
  induction callbacks generalizing w with
  | nil => rfl
  | cons callback rest ih =>
    have hrest := ih (run callback w).1
    unfold emitLoop
    cases herr : (run callback w).2 with
    | none =>
      simp only [herr]
      simpa [calledCallbacks] using hrest
    | some e =>
      simp only [herr]
      simpa [calledCallbacks] using hrest

/-- The loop of `emit` reports exactly the errors the callbacks returned. -/
theorem emitLoop_reported {σ : Type}
    (run : Callback → networkUpdateMonitor × σ → (networkUpdateMonitor × σ) × Option Err)
    (callbacks : List Callback) (w : networkUpdateMonitor × σ) :
    reportedErrors (emitLoop run callbacks w).2 = returnedErrors (emitLoop run callbacks w).2 := by
  induction callbacks generalizing w with
  | nil => rfl
  | cons callback rest ih =>
    have hrest := ih (run callback w).1
    unfold emitLoop
    cases herr : (run callback w).2 with
    | none =>
      simp only [herr]
      simpa [reportedErrors, returnedErrors] using hrest
    | some e =>
      simp only [herr]
      simpa [reportedErrors, returnedErrors] using hrest

/-- The calls of the loop of `emit`: the first callback with what it returns
in the starting world, then the calls of the rest in the world it leaves. -/
theorem emitLoop_callResults_cons {σ : Type}
    (run : Callback → networkUpdateMonitor × σ → (networkUpdateMonitor × σ) × Option Err)
    (callback : Callback) (rest : List Callback) (w : networkUpdateMonitor × σ) :
    callResults (emitLoop run (callback :: rest) w).2
      = (callback, (run callback w).2) :: callResults (emitLoop run rest (run callback w).1).2 := by
  conv_lhs => rw [emitLoop]
  cases herr : (run callback w).2 with
  | none => simp [herr, callResults]
  | some e => simp [herr, callResults]

/-- The world that the loop of `emit` leaves is the world after its callbacks
have run one after the other. -/
theorem emitLoop_world {σ : Type}
    (run : Callback → networkUpdateMonitor × σ → (networkUpdateMonitor × σ) × Option Err)
    (callbacks : List Callback) (w : networkUpdateMonitor × σ) :
    (emitLoop run callbacks w).1 = worldAfter run w callbacks := by
  induction callbacks generalizing w with
  | nil => rfl
  | cons callback rest ih =>
    have hrest := ih (run callback w).1
    unfold emitLoop
    cases herr : (run callback w).2 with
    | none =>
      simp only [herr]
      simpa [worldAfter] using hrest
    | some e =>
      simp only [herr]
      simpa [worldAfter] using hrest

/-- The call at position `i` of the loop of `emit` is the callback at position
`i` of the snapshot, with what it returns in the world the callbacks before it
have left. -/
theorem emitLoop_results {σ : Type}
    (run : Callback → networkUpdateMonitor × σ → (networkUpdateMonitor × σ) × Option Err)
    (callbacks : List Callback) (w : networkUpdateMonitor × σ) (i : Nat) (callback : Callback)
    (hi : callbacks[i]? = some callback) :
    (callResults (emitLoop run callbacks w).2)[i]?
      = some (callback, (run callback (worldAfter run w (callbacks.take i))).2) := by
  induction callbacks generalizing w i with
  | nil => simp at hi
  | cons first rest ih =>
    rw [emitLoop_callResults_cons]
    cases i with
    | zero =>
      simp only [List.getElem?_cons_zero, Option.some.injEq] at hi
      subst hi
      simp [worldAfter]
    | succ i =>
      rw [List.getElem?_cons_succ] at hi
      rw [List.getElem?_cons_succ, ih (run first w).1 i hi]
      simp [worldAfter]

/-- The trace of the loop of `emit` is made of its calls, each followed by the
report of its error when it returned one. -/
theorem emitLoop_trace {σ : Type}
    (run : Callback → networkUpdateMonitor × σ → (networkUpdateMonitor × σ) × Option Err)
    (callbacks : List Callback) (w : networkUpdateMonitor × σ) :
    (emitLoop run callbacks w).2
      = (callResults (emitLoop run callbacks w).2).flatMap callEvents := by
  induction callbacks generalizing w with
  | nil => rfl
  | cons callback rest ih =>
    rw [emitLoop_callResults_cons, List.flatMap_cons, ← ih (run callback w).1]
    conv_lhs => rw [emitLoop]
    cases herr : (run callback w).2 with
    | none => simp [herr, callEvents]
    | some e => simp [herr, callEvents]

/-- C6: whatever the callbacks do to the registry while they run, one `emit`
calls exactly the callbacks that were in the registry when it started, once
per registration and in registration order (a callback registered last is
called last), and the error handler receives exactly the errors that the
called callbacks returned, one report per failing call, in call order. The
call at position `i` is a real call: its recorded result is what the callback
returns in the world left by the calls before it, the world after `emit` is
the world after all of them, and the trace consists of the calls, each
failing one directly followed by its report. -/
theorem emit_spec {σ : Type}
    (run : Callback → networkUpdateMonitor × σ → (networkUpdateMonitor × σ) × Option Err)
    (m : networkUpdateMonitor) (s : σ) :
    calledCallbacks (emit run (m, s)).2 = ListArray m.callbacks ∧
    reportedErrors (emit run (m, s)).2 = returnedErrors (emit run (m, s)).2 ∧
    (reportedErrors (emit run (m, s)).2).length
      = ((emit run (m, s)).2.filter (fun ev => match ev with
          | .called _ (some _) => true
          | _ => false)).length ∧
    (∀ callback : Callback,
      calledCallbacks (emit run ((RegisterCallback m callback).2, s)).2
        = ListArray m.callbacks ++ [callback]) ∧
    (emit run (m, s)).1 = worldAfter run (m, s) (ListArray m.callbacks) ∧
    (∀ (i : Nat) (callback : Callback), (ListArray m.callbacks)[i]? = some callback →
      (callResults (emit run (m, s)).2)[i]?
        = some (callback,
            (run callback (worldAfter run (m, s) ((ListArray m.callbacks).take i))).2)) ∧
    (emit run (m, s)).2 = (callResults (emit run (m, s)).2).flatMap callEvents := by
  refine ⟨emitLoop_called run _ _, emitLoop_reported run _ _, ?_, ?_,
    emitLoop_world run _ _, emitLoop_results run _ _, emitLoop_trace run _ _⟩
  · have h : reportedErrors (emit run (m, s)).2 = returnedErrors (emit run (m, s)).2 :=
      emitLoop_reported run _ _
    rw [h]
    unfold returnedErrors
    generalize (emit run (m, s)).2 = events
    induction events with
    | nil => rfl
    | cons ev rest ih =>
      cases ev with
      | called callback result =>
        cases result with
        | none => simpa [List.filterMap_cons, List.filter_cons] using ih
        | some e => simpa [List.filterMap_cons, List.filter_cons] using ih
      | reported e => simpa [List.filterMap_cons, List.filter_cons] using ih
  · intro callback
    have h := emitLoop_called run (ListArray (RegisterCallback m callback).2.callbacks)
      ((RegisterCallback m callback).2, s)
    simpa [emit, RegisterCallback, ListArray] using h

/-- C6 at a sample: callback 11 registers callback 12 and fails; `emit` calls
11 only, reports its error once, and leaves 12 in the registry. -/
theorem emit_spec_witness :
    calledCallbacks (emit sampleRun (sampleNetworkMonitor, ())).2 = [11] ∧
    (emit sampleRun (sampleNetworkMonitor, ())).2
      = [.called 11 (some (.other 3)), .reported (.other 3)] ∧
    ListArray (emit sampleRun (sampleNetworkMonitor, ())).1.1.callbacks = [11, 12] ∧
    (callResults (emit sampleRun (sampleNetworkMonitor, ())).2)[0]?
      = some (11, (sampleRun 11 (sampleNetworkMonitor, ())).2) :=
  ⟨(emit_spec sampleRun sampleNetworkMonitor ()).1, by decide, by decide,
    (emit_spec sampleRun sampleNetworkMonitor ()).2.2.2.2.2.1 0 11 (by decide)⟩

/-! ## Theorems: `WritePackets` -/

/-- The attempted writes are the packets of the batch, in batch order. -/
theorem writeLoop_attempts {σ : Type} (tun : Device σ) (s : σ) (n : Nat)
    (packets : List (List (List Nat))) :
    (writeLoop tun s n packets).attempts.map Prod.fst
      = packets.take (writeLoop tun s n packets).attempts.length := by
  induction packets generalizing s n with
  | nil => rfl
  | cons packet rest ih =>
    unfold writeLoop
    cases herr : (tun.Write s packet).2 with
    | some e => simp [herr]
    | none =>
      simp only [herr, List.map_cons, List.length_cons, List.take_succ_cons]
      rw [ih]

/-- When no attempted write failed, every packet was written. -/
theorem writeLoop_success {σ : Type} (tun : Device σ) (s : σ) (n : Nat)
    (packets : List (List (List Nat)))
    (hok : ∀ a ∈ (writeLoop tun s n packets).attempts, a.2 = none) :
    (writeLoop tun s n packets).n = n + packets.length ∧
    (writeLoop tun s n packets).err = none ∧
    (writeLoop tun s n packets).attempts.length = packets.length := by
  induction packets generalizing s n with
  | nil => exact ⟨rfl, rfl, rfl⟩
  | cons packet rest ih =>
    unfold writeLoop at hok ⊢
    cases herr : (tun.Write s packet).2 with
    | some e =>
      simp only [herr] at hok
      have h := hok (packet, some e) (List.mem_singleton.mpr rfl)
      cases h
    | none =>
      simp only [herr] at hok ⊢
      have hrest := ih (tun.Write s packet).1 (n + 1)
        (fun a ha => hok a (List.mem_cons_of_mem _ ha))
      obtain ⟨h1, h2, h3⟩ := hrest
      refine ⟨?_, h2, ?_⟩
      · rw [h1, List.length_cons]
        omega
      · rw [List.length_cons, List.length_cons, h3]

/-- When the attempt at position `k` failed, it was the last attempt, all
attempts before it succeeded, and the count is `k`. -/
theorem writeLoop_failure {σ : Type} (tun : Device σ) (s : σ) (n : Nat)
    (packets : List (List (List Nat))) (k : Nat) (packet : List (List Nat)) (e : Err)
    (hfail : (writeLoop tun s n packets).attempts[k]? = some (packet, some e)) :
    (writeLoop tun s n packets).n = n + k ∧
    (writeLoop tun s n packets).err = some .ErrAborted ∧
    (writeLoop tun s n packets).attempts.length = k + 1 ∧
    (∀ j, j < k → ∃ q, (writeLoop tun s n packets).attempts[j]? = some (q, none)) := by
  induction packets generalizing s n k with
  | nil => simp [writeLoop] at hfail
  | cons first rest ih =>
    unfold writeLoop at hfail ⊢
    cases herr : (tun.Write s first).2 with
    | some e1 =>
      simp only [herr] at hfail ⊢
      cases k with
      | zero => simp
      | succ k => simp at hfail
    | none =>
      simp only [herr] at hfail ⊢
      cases k with
      | zero => simp at hfail
      | succ k =>
        rw [List.getElem?_cons_succ] at hfail
        obtain ⟨h1, h2, h3, h4⟩ := ih (tun.Write s first).1 (n + 1) k hfail
        refine ⟨?_, h2, ?_, ?_⟩
        · rw [h1]
          omega
        · rw [List.length_cons, h3]
        · intro j hj
          cases j with
          | zero => exact ⟨first, by simp⟩
          | succ j =>
            rw [List.getElem?_cons_succ]
            exact h4 j (by omega)

/-- The error recorded for the attempt at position `j` is what the device
returns for that packet after the writes before it. -/
theorem writeLoop_outcome {σ : Type} (tun : Device σ) (s : σ) (n : Nat)
    (packets : List (List (List Nat))) (j : Nat) (packet : List (List Nat))
    (outcome : Option Err)
    (hj : (writeLoop tun s n packets).attempts[j]? = some (packet, outcome)) :
    outcome = (tun.Write (deviceAfter tun s (packets.take j)) packet).2 := by
  induction packets generalizing s n j with
  | nil => simp [writeLoop] at hj
  | cons first rest ih =>
    unfold writeLoop at hj
    cases herr : (tun.Write s first).2 with
    | some e =>
      simp only [herr] at hj
      cases j with
      | zero =>
        simp only [List.getElem?_cons_zero, Option.some.injEq, Prod.mk.injEq] at hj
        obtain ⟨hp, ho⟩ := hj
        subst hp ho
        simpa [deviceAfter] using herr.symm
      | succ j => simp at hj
    | none =>
      simp only [herr] at hj
      cases j with
      | zero =>
        simp only [List.getElem?_cons_zero, Option.some.injEq, Prod.mk.injEq] at hj
        obtain ⟨hp, ho⟩ := hj
        subst hp ho
        simpa [deviceAfter] using herr.symm
      | succ j =>
        rw [List.getElem?_cons_succ] at hj
        have h := ih (tun.Write s first).1 (n + 1) j hj
        simpa [deviceAfter] using h

/-- C7: `WritePackets` attempts the packets of the batch in batch order, and
the outcome of each attempt is what the device returns for that packet after
the writes before it; if no attempted write fails, all `n` packets were
attempted and it returns `n` and nil; if the write at position `k` fails, it
is the first failure (all writes before it succeeded), it is the last
attempt, and `WritePackets` returns `k` and `ErrAborted`. -/
theorem WritePackets_spec {σ : Type} (tun : Device σ) (s : σ)
    (packets : List (List (List Nat))) :
    (WritePackets tun s packets).attempts.map Prod.fst
      = packets.take (WritePackets tun s packets).attempts.length ∧
    ((∀ a ∈ (WritePackets tun s packets).attempts, a.2 = none) →
      (WritePackets tun s packets).n = packets.length ∧
      (WritePackets tun s packets).err = none ∧
      (WritePackets tun s packets).attempts.length = packets.length) ∧
    (∀ (k : Nat) (packet : List (List Nat)) (e : Err),
      (WritePackets tun s packets).attempts[k]? = some (packet, some e) →
      (WritePackets tun s packets).n = k ∧
      (WritePackets tun s packets).err = some .ErrAborted ∧
      (WritePackets tun s packets).attempts.length = k + 1 ∧
      (∀ j, j < k → ∃ q, (WritePackets tun s packets).attempts[j]? = some (q, none))) ∧
    (∀ (j : Nat) (packet : List (List Nat)) (outcome : Option Err),
      (WritePackets tun s packets).attempts[j]? = some (packet, outcome) →
      outcome = (tun.Write (deviceAfter tun s (packets.take j)) packet).2) := by
  unfold WritePackets
  refine ⟨writeLoop_attempts tun s 0 packets, ?_, ?_, writeLoop_outcome tun s 0 packets⟩
  · intro hok
    have h := writeLoop_success tun s 0 packets hok
    simpa using h
  · intro k packet e hfail
    have h := writeLoop_failure tun s 0 packets k packet e hfail
    simpa using h

/-- C7 at a sample: of three packets the second write fails, so the count is
1, the error is `ErrAborted`, and the third packet is never attempted. -/
theorem WritePackets_spec_witness :
    (WritePackets sampleDevice 0 samplePackets).attempts
      = [([[0x45, 0]], none), ([[0x45, 1]], some (.other 5))] ∧
    (WritePackets sampleDevice 0 samplePackets).n = 1 ∧
    (WritePackets sampleDevice 0 samplePackets).err = some .ErrAborted ∧
    (WritePackets sampleDevice 0 samplePackets).attempts.length = 1 + 1 ∧
    (∀ j, j < 1 →
      ∃ q, (WritePackets sampleDevice 0 samplePackets).attempts[j]? = some (q, none)) :=
  ⟨by decide,
    (WritePackets_spec sampleDevice 0 samplePackets).2.2.1 1 [[0x45, 1]] (.other 5) (by decide)⟩

/-! ## Theorems: `Attach` and the ingress loop -/

/-- The number of loops that a sequence of `Attach` calls starts is the number
of steps from detached to attached among the states it passes through. -/
theorem attachAll_transitions (e : WintunEndpoint) (calls : List (Option Dispatcher)) :
    (attachAll e calls).2 = attachTransitions e (attachStates e calls) := by
  induction calls generalizing e with
  | nil => rfl
  | cons dispatcher rest ih =>
    unfold attachAll attachStates attachTransitions
    simp only
    rw [ih (Attach e dispatcher).1]
    congr 1
    obtain ⟨d0⟩ := e
    cases d0 <;> cases dispatcher <;> simp [Attach, IsAttached]

/-- The endpoint after a sequence of `Attach` calls is the last of the states
it passes through. -/
theorem attachAll_state (e : WintunEndpoint) (calls : List (Option Dispatcher)) :
    (attachAll e calls).1 = (attachStates e calls).getLastD e := by
  induction calls generalizing e with
  | nil => rfl
  | cons dispatcher rest ih =>
    unfold attachAll attachStates
    simp only
    rw [ih (Attach e dispatcher).1, List.getLastD_cons]

/-- C9: `Attach` with a dispatcher while detached records it and starts one
loop; with a dispatcher while attached it changes nothing and starts none;
with nil while attached it clears the dispatcher and starts none; with nil
while detached it changes nothing; `IsAttached` holds exactly when a
dispatcher is recorded; and over any sequence of calls that starts detached
the number of loops started is the number of steps from detached to attached. -/
theorem Attach_spec :
    (∀ d : Dispatcher, Attach { dispatcher := none } (some d) = ({ dispatcher := some d }, 1)) ∧
    (∀ d d' : Dispatcher,
      Attach { dispatcher := some d } (some d') = ({ dispatcher := some d }, 0)) ∧
    (∀ d : Dispatcher, Attach { dispatcher := some d } none = ({ dispatcher := none }, 0)) ∧
    Attach { dispatcher := none } none = ({ dispatcher := none }, 0) ∧
    (∀ e : WintunEndpoint, IsAttached e = true ↔ ∃ d, e.dispatcher = some d) ∧
    (∀ calls : List (Option Dispatcher),
      (attachAll { dispatcher := none } calls).2
        = attachTransitions { dispatcher := none } (attachStates { dispatcher := none } calls) ∧
      (attachAll { dispatcher := none } calls).1
        = (attachStates { dispatcher := none } calls).getLastD { dispatcher := none }) := by
  refine ⟨?_, ?_, ?_, ?_, ?_, ?_⟩
  · intro d
    simp [Attach]
  · intro d d'
    simp [Attach]
  · intro d
    simp [Attach]
  · simp [Attach]
  · intro e
    obtain ⟨d0⟩ := e
    cases d0 <;> simp [IsAttached]
  · intro calls
    exact ⟨attachAll_transitions _ calls, attachAll_state _ calls⟩

/-- One pass of the ingress loop with a dispatcher recorded: the event for
the packet, then the rest of the loop. -/
theorem dispatchLoop_cons (packet : List Nat) (dispatcher : Dispatcher)
    (rest : List Iteration) :
    dispatchLoop (readWhileAttached packet dispatcher :: rest)
      = (expectedEvent dispatcher packet :: (dispatchLoop rest).1, (dispatchLoop rest).2) := by
  cases packet with
  | nil =>
    simp [dispatchLoop, readWhileAttached, expectedEvent, IPVersion, IPv4Version, IPv6Version]
  | cons b0 tail =>
    by_cases c4 : b0 % 256 / 16 = 4
    · have i4 : (b0 : Int) % 256 / 16 = 4 := by omega
      simp [dispatchLoop, readWhileAttached, expectedEvent, IPVersion, IPv4Version, c4, i4]
    · have i4 : ¬ ((b0 : Int) % 256 / 16 = 4) := by omega
      by_cases c6 : b0 % 256 / 16 = 6
      · have i6 : (b0 : Int) % 256 / 16 = 6 := by omega
        simp [dispatchLoop, readWhileAttached, expectedEvent, IPVersion, IPv4Version,
          IPv6Version, c4, c6, i4, i6]
      · have i6 : ¬ ((b0 : Int) % 256 / 16 = 6) := by omega
        simp [dispatchLoop, readWhileAttached, expectedEvent, IPVersion, IPv4Version,
          IPv6Version, c4, c6, i4, i6]

/-- C8: when every read succeeds and finds a dispatcher recorded, the ingress
loop produces exactly one event per packet, in read order: a delivery with
the IPv4 protocol number when the high nibble of the first byte is 4, a
delivery with the IPv6 protocol number when it is 6, and otherwise (also for
an empty packet) one device write of exactly the bytes read, without a
delivery; after the last packet the loop is inside the next read. -/
theorem dispatchLoop_classifies (reads : List (List Nat × Dispatcher)) :
    dispatchLoop (reads.map (fun r => readWhileAttached r.1 r.2))
      = (reads.map (fun r => expectedEvent r.2 r.1), .reading) ∧
    (∀ (d : Dispatcher) (b0 : Nat) (tail : List Nat), b0 % 256 / 16 = 4 →
      expectedEvent d (b0 :: tail) = .deliver d 0x0800 (b0 :: tail)) ∧
    (∀ (d : Dispatcher) (b0 : Nat) (tail : List Nat), b0 % 256 / 16 = 6 →
      expectedEvent d (b0 :: tail) = .deliver d 0x86dd (b0 :: tail)) ∧
    (∀ (d : Dispatcher) (b0 : Nat) (tail : List Nat),
      b0 % 256 / 16 ≠ 4 → b0 % 256 / 16 ≠ 6 →
      expectedEvent d (b0 :: tail) = .deviceWrite [b0 :: tail]) ∧
    (∀ d : Dispatcher, expectedEvent d [] = .deviceWrite [[]]) := by
  refine ⟨?_, ?_, ?_, ?_, ?_⟩
  · induction reads with
    | nil => rfl
    | cons r rest ih =>
      rw [List.map_cons, dispatchLoop_cons, ih]
      rfl
  · intro d b0 tail h
    simp [expectedEvent, h, IPv4ProtocolNumber]
  · intro d b0 tail h
    simp [expectedEvent, h, IPv6ProtocolNumber]
  · intro d b0 tail h4 h6
    simp [expectedEvent, h4, h6]
  · intro d
    rfl

/-- C8 at a sample: an IPv4 packet, an IPv6 packet, an empty packet and a
packet with leading nibble 0, read while dispatcher 1 is recorded. -/
theorem dispatchLoop_classifies_witness :
    dispatchLoop [readWhileAttached [0x45, 1] 1, readWhileAttached [0x60] 1,
        readWhileAttached [] 1, readWhileAttached [0x05] 1]
      = ([.deliver 1 0x0800 [0x45, 1], .deliver 1 0x86dd [0x60], .deviceWrite [[]],
          .deviceWrite [[0x05]]], .reading) ∧
    expectedEvent 1 (0x45 :: [1]) = .deliver 1 0x0800 (0x45 :: [1]) ∧
    expectedEvent 1 (0x60 :: []) = .deliver 1 0x86dd (0x60 :: []) ∧
    expectedEvent 1 (0x05 :: []) = .deviceWrite [0x05 :: []] :=
  ⟨(dispatchLoop_classifies [([0x45, 1], 1), ([0x60], 1), ([], 1), ([0x05], 1)]).1,
   (dispatchLoop_classifies []).2.1 1 0x45 [1] (by decide),
   (dispatchLoop_classifies []).2.2.1 1 0x60 [] (by decide),
   (dispatchLoop_classifies []).2.2.2.1 1 0x05 [] (by decide) (by decide)⟩

/-! ## Theorems: `loopUpdate` -/

/-- A finished call of `rawConn.Read` has used up at least one step. -/
theorem rawConnRead_length (innerErr : Option Err) (steps : List SockStep)
    (err innerErr' : Option Err) (rest : List SockStep)
    (h : rawConnRead innerErr steps = some (err, innerErr', rest)) :
    rest.length < steps.length := by
  induction steps generalizing innerErr with
  | nil => simp [rawConnRead] at h
  | cons step tail ih =>
    cases step with
    | pollErr e =>
      simp only [rawConnRead, Option.some.injEq, Prod.mk.injEq] at h
      obtain ⟨_, _, hrest⟩ := h
      subst hrest
      simp
    | sysRead r =>
      simp only [rawConnRead] at h
      split at h
      · simp only [Option.some.injEq, Prod.mk.injEq] at h
        obtain ⟨_, _, hrest⟩ := h
        subst hrest
        simp
      · have := ih _ h
        simp only [List.length_cons]
        omega

/-- The loop of `loopUpdate` never needs more passes than there are steps. -/
theorem updateLoop_fuel (fuel : Nat) (steps : List SockStep) (h : steps.length < fuel) :
    (updateLoop fuel steps).2 ≠ .outOfFuel := by
  induction fuel generalizing steps with
  | zero => omega
  | succ fuel ih =>
    unfold updateLoop
    cases hread : rawConnRead none steps with
    | none => simp [afterRead]
    | some result =>
      obtain ⟨err, innerErr, rest⟩ := result
      have hlen := rawConnRead_length none steps err innerErr rest hread
      unfold afterRead
      simp only
      split
      · split <;> simp
      · exact ih rest (by omega)

/-- The model of `loopUpdate` never stops for lack of iterations: it ends
because the method returned or because the steps ran out while it waited. -/
theorem loopUpdate_fuel (syscallConn : Option Err) (steps : List SockStep) :
    (loopUpdate syscallConn steps).2 ≠ .outOfFuel := by
  unfold loopUpdate
  cases syscallConn with
  | some err => simp
  | none => exact updateLoop_fuel _ steps (by omega)

/-- Reads that succeed or would block, followed by steps `fin` that end the
loop with the events and ending `x` whatever came before: the loop emits once
per successful read and then ends as `fin` says. -/
theorem afterRead_append (pre fin : List SockStep) (x : List UpdateEvent × UpdateEnd)
    (hpre : ∀ step ∈ pre,
      (∃ n, step = .sysRead (.ok n)) ∨ step = .sysRead (.error .ewouldblock))
    (hfin : ∀ innerErr next, afterRead next (rawConnRead innerErr fin) = x)
    (fuel : Nat) (innerErr : Option Err) (hfuel : pre.length ≤ fuel) :
    afterRead (updateLoop fuel) (rawConnRead innerErr (pre ++ fin))
      = (List.replicate (successCount pre) .emitted ++ x.1, x.2) := by
  induction pre generalizing fuel innerErr with
  | nil =>
    rw [List.nil_append, hfin]
    simp [successCount]
  | cons step rest ih =>
    have hrest : ∀ st ∈ rest,
        (∃ n, st = .sysRead (.ok n)) ∨ st = .sysRead (.error .ewouldblock) :=
      fun st hst => hpre st (List.mem_cons_of_mem step hst)
    rcases hpre step (List.mem_cons_self step rest) with ⟨n, hn⟩ | hblock
    · subst hn
      cases fuel with
      | zero => simp at hfuel
      | succ fuel =>
        have hlen : rest.length ≤ fuel := by
          simp only [List.length_cons] at hfuel
          omega
        have hnext := ih hrest fuel none hlen
        have hstep : updateLoop (fuel + 1) (rest ++ fin)
            = afterRead (updateLoop fuel) (rawConnRead none (rest ++ fin)) := rfl
        simp only [List.cons_append, rawConnRead, readOnce, afterRead, successCount]
        simp [hstep, hnext, List.replicate_succ]
    · subst hblock
      have hlen : rest.length ≤ fuel := by
        simp only [List.length_cons] at hfuel
        omega
      have hnext := ih hrest fuel (some Err.ewouldblock) hlen
      simp only [List.cons_append, rawConnRead, readOnce, successCount]
      simpa using hnext

/-- Reads that succeed or would block, followed by a read that fails with a
real errno: one `emit` per successful read, then the loop stops; the error
handler gets the errno once unless the library test `E.IsClosed` accepts it. -/
theorem loopUpdate_read_error (pre rest : List SockStep) (e : Err)
    (hpre : ∀ step ∈ pre,
      (∃ n, step = .sysRead (.ok n)) ∨ step = .sysRead (.error .ewouldblock))
    (he : e ≠ .ewouldblock) :
    loopUpdate none (pre ++ .sysRead (.error e) :: rest)
      = (List.replicate (successCount pre) .emitted
          ++ (if IsClosed e then [] else [.handled e]), .returned) := by
  have hfin : ∀ innerErr next,
      afterRead next (rawConnRead innerErr (.sysRead (.error e) :: rest))
        = (if IsClosed e then [] else [.handled e], UpdateEnd.returned) := by
    intro innerErr next
    cases hc : IsClosed e <;> simp [rawConnRead, readOnce, afterRead, he, hc]
  unfold loopUpdate
  simp only
  rw [updateLoop]
  exact afterRead_append pre _ _ hpre hfin _ none (by simp)

/-- Reads that succeed or would block, then a read that would block and a
failure of the wait that follows it: one `emit` per successful read, then the
loop stops and hands `EWOULDBLOCK` to the error handler, whatever error the
wait failed with. -/
theorem loopUpdate_wait_error (pre rest : List SockStep) (e : Err)
    (hpre : ∀ step ∈ pre,
      (∃ n, step = .sysRead (.ok n)) ∨ step = .sysRead (.error .ewouldblock)) :
    loopUpdate none (pre ++ .sysRead (.error .ewouldblock) :: .pollErr e :: rest)
      = (List.replicate (successCount pre) .emitted ++ [.handled .ewouldblock], .returned) := by
  have hfin : ∀ innerErr next,
      afterRead next
        (rawConnRead innerErr (.sysRead (.error .ewouldblock) :: .pollErr e :: rest))
        = ([.handled .ewouldblock], UpdateEnd.returned) := by
    intro innerErr next
    simp [rawConnRead, readOnce, afterRead, IsClosed]
  unfold loopUpdate
  simp only
  rw [updateLoop]
  exact afterRead_append pre _ _ hpre hfin _ none (by simp)

/-- C10: when the routing socket would block and is then closed while the
loop waits for it, the raw connection returns `poll.ErrFileClosing`, but
`loopUpdate` hands `EWOULDBLOCK` to the error handler: one call, with an
error that is not the one that stopped the loop. The library test does not
accept either error, and a close that arrives with `innerErr` nil is reported
with the error of the raw connection. -/
theorem loopUpdate_closed_while_waiting :
    loopUpdate none sampleClosedWhileWaiting = ([.handled .ewouldblock], .returned) ∧
    emitCount (loopUpdate none sampleClosedWhileWaiting).1 = 0 ∧
    handledErrors (loopUpdate none sampleClosedWhileWaiting).1 = [.ewouldblock] ∧
    handledErrors (loopUpdate none sampleClosedWhileWaiting).1 ≠ [.errFileClosing] ∧
    handledErrors (loopUpdate none sampleClosedWhileWaiting).1 ≠ [] ∧
    IsClosed .errFileClosing = false ∧
    IsClosed .ewouldblock = false ∧
    loopUpdate none [.pollErr .errFileClosing] = ([.handled .errFileClosing], .returned) ∧
    loopUpdate none [.sysRead (.ok 8), .pollErr .errFileClosing]
      = ([.emitted, .handled .errFileClosing], .returned) := by
  decide

end SingTun
